import Mathlib

/-!
Verification of the tabulate Figma plugin (src/code.ts) against its
natural-language specification.  The scene-graph data model, the cell
selector (getAllCells), the row organizer (organizeCellsIntoRows), the
value-slot resolver (findValueLayer), the tabular populator
(populateTable / convertObjectsTo2DArray) and the two dummy-data
generators are shallowly embedded as executable Lean definitions, and the
spec's testable properties are proved or refuted about them.
-/

set_option maxHeartbeats 1000000

namespace Tabulate

/-! ## JavaScript string primitives

The plugin compares node names with String.prototype.toLowerCase and
classifies headers with String.prototype.includes / trim.  These are
modelled character-list-wise (the names and headers involved are ASCII,
and toLowerCase on ASCII lowercases exactly the letters A-Z). -/

/-- Model of lower-casing a single ASCII character. -/
def chLower (c : Char) : Char :=
  if c.val ≥ 65 && c.val ≤ 90 then Char.ofNat (c.toNat + 32) else c

/-- Model of JavaScript String.prototype.toLowerCase (ASCII range). -/
def strLower (s : String) : String := ⟨s.data.map chLower⟩

/-- The substring sub occurs at position i of l. -/
def subAt (l sub : List Char) (i : Nat) : Bool := (l.drop i).take sub.length == sub

/-- The character list sub occurs somewhere inside l. -/
def listContainsSub (l sub : List Char) : Bool :=
  (List.range (l.length + 1)).any fun i => subAt l sub i

/-- Model of JavaScript String.prototype.includes. -/
def strIncludes (s sub : String) : Bool := listContainsSub s.data sub.data

/-- Whitespace test used by the trim model. -/
def isWS (c : Char) : Bool := c == ' ' || c == '\t' || c == '\n' || c == '\r'

/-- Model of JavaScript String.prototype.trim. -/
def strTrim (s : String) : String :=
  ⟨((s.data.dropWhile isWS).reverse.dropWhile isWS).reverse⟩

/-- Model of JavaScript String.prototype.startsWith. -/
def strStarts (s pre : String) : Bool := s.data.take pre.data.length == pre.data

/-- Model of JavaScript String.prototype.substring(n) (drop the first n characters). -/
def strDrop (s : String) (n : Nat) : String := ⟨s.data.drop n⟩

/-! ## Scene-graph data model

A Figma SceneNode is modelled by its type, name, position, text content
(meaningful for TEXT nodes) and an optional ordered child list; absence
of the child list models nodes without a children property, mirroring
the dynamic ('children' in node) checks of the source. -/

/-- The node types the source distinguishes: INSTANCE, TEXT, and container /
leaf kinds that are neither. -/
inductive NType where
  | instN
  | textN
  | frameN
  | rectN
deriving DecidableEq, Repr

/-- The non-recursive attributes of a scene node. -/
structure NInfo where
  ntype : NType
  name : String
  x : Int
  y : Int
  chars : String
deriving DecidableEq, Repr

/-- A scene node: attributes plus an optional ordered child list. -/
inductive Node where
  | mk : NInfo → Option (List Node) → Node

/-- The attribute record of a node. -/
def Node.info : Node → NInfo
  | .mk i _ => i

/-- The optional child list of a node. -/
def Node.children : Node → Option (List Node)
  | .mk _ cs => cs

/-- The type of a node. -/
def Node.ntype (n : Node) : NType := n.info.ntype

/-- The name of a node. -/
def Node.name (n : Node) : String := n.info.name

/-- The text content of a node. -/
def Node.chars (n : Node) : String := n.info.chars

/-- The x position of a node. -/
def Node.x (n : Node) : Int := n.info.x

/-- The y position of a node. -/
def Node.y (n : Node) : Int := n.info.y

/-- Test for node.type === 'INSTANCE'. -/
def NType.isInst : NType → Bool
  | .instN => true
  | _ => false

/-- Test for node.type === 'TEXT'. -/
def NType.isText : NType → Bool
  | .textN => true
  | _ => false

/-- An induction principle for the nested Node tree: to prove P everywhere
it suffices to prove it at a node assuming it for all listed children. -/
theorem Node.ind (P : Node → Prop)
    (h : ∀ i cs, (∀ c l, cs = some l → c ∈ l → P c) → P (Node.mk i cs)) :
    ∀ n, P n := by
  have key : ∀ s (n : Node), sizeOf n ≤ s → P n := by
    intro s
    induction s with
    | zero =>
      intro n hs
      cases n with
      | mk i cs =>
        simp only [Node.mk.sizeOf_spec] at hs
        omega
    | succ s ih =>
      intro n hs
      cases n with
      | mk i cs =>
        apply h
        intro c l hcs hc
        apply ih
        have h1 : sizeOf c < sizeOf l := List.sizeOf_lt_of_mem hc
        subst hcs
        simp only [Node.mk.sizeOf_spec, Option.some.sizeOf_spec] at hs
        omega
  exact fun n => key (sizeOf n) n le_rfl

/-! ## Value-slot resolver (findValueLayer, src/code.ts lines 90-104) -/

/-- The predicate of findValueLayer: the node's name lower-cases to
"value" and the node is a TEXT node. -/
def isValueText (n : Node) : Bool :=
  strLower n.name == "value" && n.ntype.isText

mutual
/-- Embeds findValueLayer: returns the node itself if it is a value text
layer, otherwise the first hit found recursively among its children. -/
def findValueLayer : Node → Option Node
  | .mk i cs =>
    if isValueText (.mk i cs) then some (.mk i cs)
    else
      match cs with
      | none => none
      | some l => findValueList l
/-- The child-list loop of findValueLayer: first non-null result wins. -/
def findValueList : List Node → Option Node
  | [] => none
  | c :: rest =>
    match findValueLayer c with
    | some v => some v
    | none => findValueList rest
end

mutual
/-- Pre-order listing of a node tree, the node itself first. -/
def preorder : Node → List Node
  | .mk i cs =>
    .mk i cs ::
      (match cs with
       | none => []
       | some l => preorderList l)
/-- Pre-order listing of a forest, left to right. -/
def preorderList : List Node → List Node
  | [] => []
  | c :: rest => preorder c ++ preorderList rest
end

/-- Replace the text content at the root of a node, keeping everything else. -/
def setChars (n : Node) (s : String) : Node :=
  match n with
  | .mk i cs => .mk { i with chars := s } cs

mutual
/-- Functional model of the mutation valueLayer.characters = s performed by
the populator: rewrite the text of the first pre-order value text layer. -/
def setValueLayer : Node → String → Node
  | .mk i cs, s =>
    if isValueText (.mk i cs) then setChars (.mk i cs) s
    else
      match cs with
      | none => .mk i cs
      | some l => .mk i (some (setValueList l s))
/-- Child-list part of setValueLayer: update the first subtree that
contains a value layer and keep all others. -/
def setValueList : List Node → String → List Node
  | [], _ => []
  | c :: rest, s =>
    match findValueLayer c with
    | some _ => setValueLayer c s :: rest
    | none => c :: setValueList rest s
end

/-- Reading a cell back: the text content of its value layer, if any. -/
def readCell (n : Node) : Option String := (findValueLayer n).map Node.chars

/-! ## Selector (getAllCells, src/code.ts lines 107-159) -/

/-- Concatenation of the lists produced for each element, in order; this is
how the forEach / push accumulation of the source is modelled. -/
def concatMap (f : α → List β) : List α → List β
  | [] => []
  | a :: l => f a ++ concatMap f l

/-- Test whether a node is a cell instance: type INSTANCE and name
lower-casing to "cell" (the filter used on child lists in the source). -/
def isCellInstance (n : Node) : Bool :=
  n.ntype.isInst && strLower n.name == "cell"

/-- The cell instances among an immediate child list. -/
def cellsFrom (l : List Node) : List Node := l.filter isCellInstance

/-- The treatment of one child of a non-instance selection root: a cell
instance is kept; otherwise, if the child exposes children, its immediate
children are filtered for cell instances. -/
def cellsFromChild (child : Node) : List Node :=
  if child.ntype.isInst then
    if strLower child.name == "cell" then [child]
    else
      match child.children with
      | some gl => cellsFrom gl
      | none => []
  else
    match child.children with
    | some gl => cellsFrom gl
    | none => []

/-- The treatment of one selection root: a cell instance is kept itself; a
non-cell instance has its children filtered; any other node with children
has each child processed one level further down. -/
def cellsFromRoot (node : Node) : List Node :=
  if node.ntype.isInst then
    if strLower node.name == "cell" then [node]
    else
      match node.children with
      | some l => cellsFrom l
      | none => []
  else
    match node.children with
    | some l => concatMap cellsFromChild l
    | none => []

/-- Embeds getAllCells: the cells discovered from each selection root, in
selection order. -/
def getAllCells (selection : List Node) : List Node :=
  concatMap cellsFromRoot selection

/-! ## Row organizer (organizeCellsIntoRows, src/code.ts lines 162-191)

The organizer consumes the discovered cells together with the identity of
each cell's immediate parent (cell.parent.id in the source); a discovered
cell is therefore modelled here as its parent id (absent for a parentless
cell) plus its coordinates. -/

/-- A discovered cell as seen by the organizer: optional parent identity
and position. -/
structure RCell where
  parentId : Option Nat
  x : Int
  y : Int
deriving DecidableEq, Repr

/-- First-occurrence-ordered deduplication with an accumulator of already
seen keys, modelling the key insertion order of the JavaScript Map used
for grouping. -/
def dedupFirstAux (seen : List Nat) : List Nat → List Nat
  | [] => []
  | k :: ks =>
    if seen.contains k then dedupFirstAux seen ks
    else k :: dedupFirstAux (k :: seen) ks

/-- First-occurrence-ordered deduplication. -/
def dedupFirst : List Nat → List Nat := dedupFirstAux []

/-- Group cells by parent identity: one group per distinct parent id in
first-occurrence order, each group listing its cells in discovery order;
cells without a parent are dropped. -/
def groupByParent (cells : List RCell) : List (List RCell) :=
  (dedupFirst (cells.filterMap (fun c => c.parentId))).map
    (fun k => cells.filter (fun c => c.parentId = some k))

/-- Insert an element into a list at the first position where the
comparison accepts it. -/
def ordInsert (le : α → α → Bool) (a : α) : List α → List α
  | [] => [a]
  | b :: l => if le a b then a :: b :: l else b :: ordInsert le a l

/-- Comparison sort (model of Array.prototype.sort with a comparator:
the result is the input reordered consistently with the comparison). -/
def sortBy (le : α → α → Bool) : List α → List α
  | [] => []
  | a :: l => ordInsert le a (sortBy le l)

/-- The in-row comparator (a, b) => a.x - b.x, read as a non-strict order. -/
def leX (a b : RCell) : Bool := a.x ≤ b.x

/-- The row comparator: rows compare by the y of their first cell, and a
row without cells compares equal to everything (the source comparator
returns 0 in that case). -/
def leRow (a b : List RCell) : Bool :=
  match a, b with
  | [], _ => true
  | _, [] => true
  | c :: _, d :: _ => c.y ≤ d.y

/-- Embeds organizeCellsIntoRows: group by parent id, sort each group by x,
then sort the groups by the y of their first member. -/
def organizeCellsIntoRows (cells : List RCell) : List (List RCell) :=
  sortBy leRow ((groupByParent cells).map (sortBy leX))

/-- Adjacent-pairs monotonicity: every element is accepted by the
comparison against its successor. -/
def chainLe (le : α → α → Bool) : List α → Bool
  | [] => true
  | [_] => true
  | a :: b :: l => le a b && chainLe le (b :: l)

/-! ## Dataset model and 2-D conversion (convertObjectsTo2DArray,
src/code.ts lines 194-212) -/

/-- A JSON-ish scalar as handled by the populator: string, number
(integral, as exercised by the spec), null, or the undefined produced by
a missing field lookup. -/
inductive JValue where
  | vStr : String → JValue
  | vNum : Int → JValue
  | vNull : JValue
  | vUndef : JValue
deriving DecidableEq, Repr

/-- A record: field names mapped to scalars, in insertion order. -/
abbrev Record := List (String × JValue)

/-- Property access obj[key]: the first binding of the key, or undefined. -/
def getValue (o : Record) (k : String) : JValue :=
  match o.lookup k with
  | some v => v
  | none => JValue.vUndef

/-- The populate payload: either an array of records or any non-array
value (the source guards with Array.isArray). -/
inductive PopInput where
  | nonArray : PopInput
  | arr : List Record → PopInput

/-- Embeds convertObjectsTo2DArray: a non-array or empty input yields the
empty table; otherwise the keys of the first record form a header row and
every record contributes a row of its values at those keys. -/
def convertObjectsTo2DArray (data : PopInput) : List (List JValue) :=
  match data with
  | .nonArray => []
  | .arr [] => []
  | .arr (r :: rs) =>
    (r.map (fun p => JValue.vStr p.1)) ::
      (r :: rs).map (fun o => r.map (fun p => getValue o p.1))

/-! ## Tabular populator (populateTable, src/code.ts lines 254-272) -/

/-- Model of String(v !== null && v !== undefined ? v : '') from the write
at src/code.ts line 265. -/
def jsString (v : JValue) : String :=
  match v with
  | .vStr s => s
  | .vNum n => toString n
  | .vNull => ""
  | .vUndef => ""

/-- The inner column loop: walk cells and values together up to the
shorter of the two, writing each resolvable value layer and counting it;
a cell whose value layer does not resolve is left as is and not counted. -/
def populateRow : List Node → List JValue → List Node × Nat
  | [], _ => ([], 0)
  | cs, [] => (cs, 0)
  | c :: cs, v :: vs =>
    let rest := populateRow cs vs
    match findValueLayer c with
    | some _ => (setValueLayer c (jsString v) :: rest.1, rest.2 + 1)
    | none => (c :: rest.1, rest.2)

/-- The outer row loop: walk table rows and data rows together up to the
shorter of the two, accumulating the update count. -/
def populateRows : List (List Node) → List (List JValue) → List (List Node) × Nat
  | [], _ => ([], 0)
  | rs, [] => (rs, 0)
  | r :: rs, d :: ds =>
    let first := populateRow r d
    let rest := populateRows rs ds
    (first.1 :: rest.1, first.2 + rest.2)

/-- Embeds the population core of populateTable: convert the payload to
rows and write it onto the organized cell rows, returning the updated
rows and the reported update count. -/
def populateTable (rows : List (List Node)) (data : PopInput) :
    List (List Node) × Nat :=
  populateRows rows (convertObjectsTo2DArray data)

/-- The total number of cells of an organized row list. -/
def totalCells (rows : List (List Node)) : Nat := (rows.map List.length).sum

/-- The total number of data values of a 2-D data table. -/
def totalValues (dataRows : List (List JValue)) : Nat :=
  (dataRows.map List.length).sum

/-- The number of cells actually visited by the populator loops whose
value slot resolves: per overlapping row, the overlapping cells with a
value layer. -/
def overlapSlotted (rows : List (List Node)) (dataRows : List (List JValue)) : Nat :=
  ((rows.zip dataRows).map
    (fun p => ((p.1.zip p.2).filter (fun q => (findValueLayer q.1).isSome)).length)).sum

/-! ## Random source

Math.random has no seed control; it is modelled as an arbitrary stream of
naturals indexed by a draw counter, so every theorem about the generators
quantifies over all streams. -/

/-- An abstract random source: a stream of raw draws and the index of the
next draw. -/
structure Rand where
  g : Nat → Nat
  k : Nat

/-- Draw a natural below n (n is always positive at the call sites,
mirroring Math.floor(Math.random() * n)), advancing the source. -/
def randNat (r : Rand) (n : Nat) : Nat × Rand := (r.g r.k % n, ⟨r.g, r.k + 1⟩)

/-- Swap two positions of a list (the destructuring swap of the source's
shuffle); out-of-range indices leave the list unchanged. -/
def listSwap (l : List α) (i j : Nat) : List α :=
  match l.get? i, l.get? j with
  | some a, some b => (l.set i b).set j a
  | _, _ => l

/-- The Fisher-Yates loop of shuffleArray: for i from the top index down
to 1, swap position i with a random position at most i. -/
def fyAux : List α → Rand → Nat → List α × Rand
  | l, r, 0 => (l, r)
  | l, r, i + 1 =>
    let d := randNat r (i + 2)
    fyAux (listSwap l (i + 1) d.1) d.2 i

/-- Embeds shuffleArray (src/code.ts lines 389-396): a uniform random
permutation of the input. -/
def shuffleArray (l : List α) (r : Rand) : List α × Rand :=
  fyAux l r (l.length - 1)

/-! ## Fixed-schema dummy-data generator

Embeds the generation section of populateTableWithDummyData
(src/code.ts lines 315-477).  The source inlines this logic; the spec
names it generateFixed(rowCount, columnCountHint), where the column count
hint is the actualColumnCount the source reads off the organized table. -/

/-- The candidate department pool (src/code.ts lines 315-319). -/
def departmentsPool : List String :=
  ["Design", "Engineering", "Marketing", "Product", "Sales",
   "Finance", "Legal", "Human Resources", "Customer Support", "Operations",
   "Research", "Development", "Quality Assurance", "Business Development", "IT"]

/-- The candidate location pool (src/code.ts lines 321-326). -/
def locationsPool : List String :=
  ["London", "New York", "Singapore", "Berlin", "Madrid",
   "Paris", "Tokyo", "Sydney", "Toronto", "Dubai",
   "Amsterdam", "Stockholm", "Hong Kong", "Mumbai", "São Paulo",
   "Seoul", "Mexico City", "Cape Town", "Milan", "Zurich"]

/-- The access level pool (src/code.ts line 328). -/
def accessLevelsPool : List String := ["Admin", "Editor", "Viewer", "Owner", "Guest"]

/-- The status pool (src/code.ts line 329). -/
def statusesPool : List String := ["Active", "Inactive", "Pending", "Suspended", "Archived"]

/-- The first-name pool (src/code.ts lines 332-339). -/
def firstNamesPool : List String :=
  ["Mark", "Sarah", "James", "Priya", "Michael",
   "Emma", "David", "Olivia", "Thomas", "Aisha",
   "Robert", "Sofia", "Daniel", "Mei", "Carlos",
   "Fatima", "John", "Zara", "Alexander", "Leila",
   "William", "Sophia", "Luis", "Elena", "Mohammed",
   "Chloe", "Hiroshi", "Isabella", "Raj", "Ingrid"]

/-- The last-name pool (src/code.ts lines 342-349). -/
def lastNamesPool : List String :=
  ["Darnalds", "Johnson", "Chen", "Patel", "Rodriguez",
   "Wilson", "Kim", "Martinez", "Schmidt", "Ahmed",
   "Brown", "Garcia", "Nguyen", "Singh", "Müller",
   "Taylor", "Sato", "Lopez", "Ivanov", "Silva",
   "Anderson", "Kowalski", "Rossi", "Jensen", "Ali",
   "Wang", "Dubois", "Hernandez", "O'Connor", "Yamamoto"]

/-- The team pool (src/code.ts lines 352-356). -/
def teamsPool : List String :=
  ["Alpha", "Beta", "Gamma", "Delta", "Epsilon",
   "Omega", "Phoenix", "Titan", "Nexus", "Quantum",
   "Horizon", "Apex", "Zenith", "Pulse", "Fusion"]

/-- The project pool (src/code.ts lines 358-362). -/
def projectsPool : List String :=
  ["Dashboard Redesign", "Mobile App", "API Integration", "Data Migration",
   "Cloud Infrastructure", "Security Audit", "UI Component Library",
   "Analytics Platform", "Customer Portal", "Automation Framework",
   "Blockchain Solution", "Machine Learning Model", "IoT Platform",
   "AR Experience", "Payment Gateway"]

/-- The skill pool (src/code.ts lines 364-368). -/
def skillsPool : List String :=
  ["JavaScript", "Python", "Design Systems", "Product Strategy", "Data Analysis",
   "Project Management", "UX Research", "Cloud Architecture", "DevOps",
   "Machine Learning", "Blockchain", "Mobile Development", "Cybersecurity",
   "AI", "Leadership"]

/-- The language pool (src/code.ts lines 370-374). -/
def languagesPool : List String :=
  ["English", "Spanish", "Mandarin", "French", "German",
   "Japanese", "Russian", "Arabic", "Portuguese", "Hindi",
   "Korean", "Italian", "Dutch", "Swedish", "Turkish"]

/-- The start-date pool (src/code.ts lines 376-380). -/
def startDatesPool : List String :=
  ["Jan 2022", "Mar 2021", "Sep 2020", "Feb 2023", "Nov 2019",
   "Apr 2022", "Jul 2021", "Dec 2020", "May 2023", "Aug 2018",
   "Oct 2022", "Jun 2021", "Jan 2020", "Mar 2023", "Sep 2019"]

/-- The phone-number pool (src/code.ts lines 382-386). -/
def phoneNumbersPool : List String :=
  ["+1 (555) 123-4567", "+44 20 7946 0958", "+65 8765 4321", "+49 30 1234 5678",
   "+34 91 123 4567", "+33 1 23 45 67 89", "+81 3 1234 5678", "+61 2 1234 5678",
   "+1 (416) 123-4567", "+971 4 123 4567", "+31 20 123 4567", "+46 8 123 45 67",
   "+852 1234 5678", "+91 22 1234 5678", "+55 11 1234-5678"]

/-- The shuffled pools threaded into the per-record construction. -/
structure Pools where
  firstNames : List String
  lastNames : List String
  departments : List String
  locations : List String
  teams : List String
  projects : List String
  skills : List String
  languages : List String
  startDates : List String
  phoneNumbers : List String

/-- Cyclic pool lookup arr[i % arr.length]. -/
def idx (l : List String) (i : Nat) : String := l.getD (i % l.length) ""

/-- The first n characters of a string. -/
def strTake (s : String) (n : Nat) : String := ⟨s.data.take n⟩

/-- Builds the i-th dummy record (the body of the generation loop,
src/code.ts lines 412-471): the six base fields always, and one extended
field per threshold the column count exceeds. -/
def makeRecord (p : Pools) (colCount i : Nat) (r : Rand) : Record × Rand :=
  let firstName := idx p.firstNames i
  let lastName := idx p.lastNames (i + 3)
  let d1 := randNat r 100
  let emailPre :=
    if d1.1 < 20 then strTake (strLower firstName) 1 ++ strLower lastName
    else strLower firstName ++ "." ++ strLower lastName
  let email := emailPre ++ "@company.com"
  let department := idx p.departments i
  let d2 := randNat d1.2 3
  let location := idx p.locations (i + d2.1)
  let d3 := randNat d2.2 accessLevelsPool.length
  let accessLevel := accessLevelsPool.getD d3.1 ""
  let d4 := randNat d3.2 100
  let statusAnd :=
    if d4.1 < 70 then ("Active", d4.2)
    else
      let d5 := randNat d4.2 statusesPool.length
      (statusesPool.getD d5.1 "", d5.2)
  let team := idx p.teams i
  let project := idx p.projects (i + 2)
  let skill := idx p.skills (i + 4)
  let language := idx p.languages (i + 1)
  let startDate := idx p.startDates (i + 5)
  let phoneNumber := idx p.phoneNumbers (i + 3)
  let base : Record :=
    [("Name", .vStr (firstName ++ " " ++ lastName)),
     ("Department", .vStr department),
     ("Email", .vStr email),
     ("Location", .vStr location),
     ("Access Level", .vStr accessLevel),
     ("Status", .vStr statusAnd.1)]
  let ext : Record :=
    (if colCount > 6 then [("Team", JValue.vStr team)] else []) ++
    (if colCount > 7 then [("Project", JValue.vStr project)] else []) ++
    (if colCount > 8 then [("Skill", JValue.vStr skill)] else []) ++
    (if colCount > 9 then [("Language", JValue.vStr language)] else []) ++
    (if colCount > 10 then [("Start Date", JValue.vStr startDate)] else []) ++
    (if colCount > 11 then [("Phone", JValue.vStr phoneNumber)] else [])
  (base ++ ext, statusAnd.2)

/-- The generation loop: n records starting at loop index i. -/
def buildRecords (p : Pools) (colCount : Nat) : Nat → Nat → Rand → List Record × Rand
  | _, 0, r => ([], r)
  | i, n + 1, r =>
    let first := makeRecord p colCount i r
    let rest := buildRecords p colCount (i + 1) n first.2
    (first.1 :: rest.1, rest.2)

/-- Embeds the fixed-schema generator generateFixed(rowCount,
columnCountHint): shuffle every pool, build max(rowCount, 30) records,
shuffle them again and truncate to rowCount. -/
def generateFixed (rowCount colCount : Nat) (r : Rand) : List Record :=
  let s1 := shuffleArray firstNamesPool r
  let s2 := shuffleArray lastNamesPool s1.2
  let s3 := shuffleArray departmentsPool s2.2
  let s4 := shuffleArray locationsPool s3.2
  let s5 := shuffleArray teamsPool s4.2
  let s6 := shuffleArray projectsPool s5.2
  let s7 := shuffleArray skillsPool s6.2
  let s8 := shuffleArray languagesPool s7.2
  let s9 := shuffleArray startDatesPool s8.2
  let s10 := shuffleArray phoneNumbersPool s9.2
  let p : Pools := ⟨s1.1, s2.1, s3.1, s4.1, s5.1, s6.1, s7.1, s8.1, s9.1, s10.1⟩
  let built := buildRecords p colCount 0 (max rowCount 30) s10.2
  let shuffled := shuffleArray built.1 built.2
  shuffled.1.take rowCount

/-- The six base field names of the fixed schema. -/
def baseFields : List String :=
  ["Name", "Department", "Email", "Location", "Access Level", "Status"]

/-- The field names of a record, in insertion order. -/
def keysOf (r : Record) : List String := r.map Prod.fst

/-! ## Schema-inferred generator (generateDataFromHeaders,
src/code.ts lines 566-976)

The pools this generator draws from are shuffled with the unseeded random
source, so the embedding takes them, together with the raw random stream
and the host clock values, as an environment over which all theorems
quantify. -/

/-- The environment of generateDataForType: shuffled pools, a random
source, and the host clock (current year, and the ISO date n days from
today used by the deadline branch). -/
structure GenEnv where
  rand : Rand
  currentYear : Nat
  todayPlus : Nat → String
  firstNames : List String
  lastNames : List String
  departments : List String
  locations : List String
  roles : List String
  teams : List String
  projects : List String
  skills : List String
  languages : List String
  statuses : List String
  companies : List String
  addresses : List String
  cities : List String
  phoneNumbers : List String
  dates : List String
  prices : List String
  quantities : List String
  ratings : List String
  ids : List String

/-- Embeds getDataTypeForHeader (src/code.ts lines 702-817): ordered
case-insensitive substring and equality rules, first match wins, with the
generic fallback carrying the trimmed header text. -/
def getDataTypeForHeader (header : String) : String :=
  let hl := strTrim (strLower header)
  if strIncludes hl "first" && (strIncludes hl "name" || hl == "first") then "firstName"
  else if strIncludes hl "last" && (strIncludes hl "name" || hl == "last") then "lastName"
  else if hl == "name" || hl == "full name" || (strIncludes hl "full" && strIncludes hl "name") then "fullName"
  else if strIncludes hl "email" || strIncludes hl "e-mail" || strIncludes hl "mail" then "email"
  else if strIncludes hl "phone" || strIncludes hl "mobile" || strIncludes hl "cell" || (strIncludes hl "number" && !strIncludes hl "id") then "phone"
  else if strIncludes hl "website" || strIncludes hl "site" || strIncludes hl "url" || strIncludes hl "web" || strIncludes hl "link" then "website"
  else if strIncludes hl "address" || strIncludes hl "street" then "address"
  else if hl == "city" then "city"
  else if hl == "state" || hl == "province" then "state"
  else if hl == "country" then "country"
  else if strIncludes hl "zip" || strIncludes hl "postal" || strIncludes hl "post code" then "zipCode"
  else if strIncludes hl "location" || strIncludes hl "region" || strIncludes hl "area" then "location"
  else if strIncludes hl "department" || strIncludes hl "dept" then "department"
  else if strIncludes hl "role" || strIncludes hl "position" || strIncludes hl "title" || strIncludes hl "job" then "role"
  else if strIncludes hl "team" || strIncludes hl "group" then "team"
  else if strIncludes hl "project" || strIncludes hl "initiative" then "project"
  else if strIncludes hl "company" || strIncludes hl "organization" || strIncludes hl "employer" || strIncludes hl "business" then "company"
  else if strIncludes hl "skill" || strIncludes hl "expertise" || strIncludes hl "specialty" || strIncludes hl "proficiency" then "skill"
  else if strIncludes hl "language" || strIncludes hl "lang" then "language"
  else if hl == "status" || (strIncludes hl "state" && !strIncludes hl "country") then "status"
  else if strIncludes hl "date" || strIncludes hl "time" || strIncludes hl "when" then "date"
  else if strIncludes hl "price" || strIncludes hl "cost" || strIncludes hl "$" || strIncludes hl "fee" || (strIncludes hl "amount" && !strIncludes hl "quantity") then "price"
  else if strIncludes hl "quantity" || strIncludes hl "qty" || strIncludes hl "count" || strIncludes hl "number of" then "quantity"
  else if strIncludes hl "rating" || strIncludes hl "score" || strIncludes hl "rank" || strIncludes hl "review" then "rating"
  else if hl == "id" || strIncludes hl "identifier" || strIncludes hl "uuid" || strIncludes hl "code" || (strIncludes hl "number" && strIncludes hl "id") then "id"
  else if strIncludes hl "access" || strIncludes hl "permission" || strIncludes hl "privilege" then "accessLevel"
  else if strIncludes hl "description" || strIncludes hl "desc" || strIncludes hl "about" || strIncludes hl "details" then "description"
  else if strIncludes hl "comment" || strIncludes hl "note" || strIncludes hl "feedback" then "comment"
  else if strIncludes hl "duration" || strIncludes hl "length" || strIncludes hl "time span" then "duration"
  else if strIncludes hl "start" && strIncludes hl "date" then "startDate"
  else if strIncludes hl "end" && strIncludes hl "date" then "endDate"
  else if strIncludes hl "deadline" then "deadline"
  else if strIncludes hl "budget" then "budget"
  else if strIncludes hl "revenue" || strIncludes hl "sales" then "revenue"
  else if strIncludes hl "profit" || strIncludes hl "margin" then "profit"
  else "generic:" ++ strTrim header

/-- Two-digit zero-padded rendering of a number below 100. -/
def twoDig (n : Nat) : String := if n < 10 then "0" ++ toString n else toString n

/-- Dollar-and-cents rendering of an amount in cents (model of
toFixed(2) on a random amount below 1000). -/
def centsStr (n : Nat) : String := toString (n / 100) ++ "." ++ twoDig (n % 100)

/-- Insert a thousands separator every three digits, walking the reversed
digit list. -/
def groupRev : List Char → List Char
  | a :: b :: c :: d :: rest => a :: b :: c :: ',' :: groupRev (d :: rest)
  | l => l

/-- Model of Number.prototype.toLocaleString: decimal digits with
thousands separators. -/
def localeStr (n : Nat) : String := ⟨(groupRev (toString n).data.reverse).reverse⟩

/-- Characters kept by the website branch's replace(/[^a-z0-9]/g, ''). -/
def asciiAlnum (c : Char) : Bool :=
  (c ≥ 'a' && c ≤ 'z') || (c ≥ '0' && c ≤ '9')

/-- Embeds generateDataForType (src/code.ts lines 820-954): pattern-based
synthesis for generic pseudo-types, otherwise the per-type pool lookup or
random draw. -/
def generateDataForType (env : GenEnv) (ty : String) (rowIndex : Nat) : String :=
  if strStarts ty "generic:" then
    let headerName := strDrop ty 8
    if strIncludes (strLower headerName) "percent" || strIncludes (strLower headerName) "%" then
      toString (randNat env.rand 100).1 ++ "%"
    else if strIncludes (strLower headerName) "year" then
      toString (env.currentYear - (randNat env.rand 5).1)
    else if strIncludes (strLower headerName) "price" || strIncludes (strLower headerName) "cost" ||
        strIncludes (strLower headerName) "payment" || strIncludes (strLower headerName) "salary" then
      "$" ++ centsStr (randNat env.rand 100000).1
    else
      headerName ++ " " ++ toString (rowIndex + 1)
  else
    match ty with
    | "fullName" => idx env.firstNames rowIndex ++ " " ++ idx env.lastNames rowIndex
    | "firstName" => idx env.firstNames rowIndex
    | "lastName" => idx env.lastNames rowIndex
    | "email" =>
      strLower (idx env.firstNames rowIndex) ++ "." ++
        strLower (idx env.lastNames rowIndex) ++ "@company.com"
    | "phone" => idx env.phoneNumbers rowIndex
    | "website" =>
      "https://www." ++ ⟨(strLower (idx env.companies rowIndex)).data.filter asciiAlnum⟩ ++ ".com"
    | "department" => idx env.departments rowIndex
    | "location" => idx env.locations rowIndex
    | "city" => idx env.cities rowIndex
    | "state" =>
      (["California", "New York", "Texas", "Florida", "Illinois", "Pennsylvania",
        "Ohio", "Georgia", "Michigan", "North Carolina"]).getD (rowIndex % 10) ""
    | "country" =>
      (["United States", "United Kingdom", "Canada", "Australia", "Germany",
        "France", "Japan", "India", "Brazil", "China"]).getD (rowIndex % 10) ""
    | "zipCode" => toString (10000 + (randNat env.rand 90000).1)
    | "role" => idx env.roles rowIndex
    | "team" => idx env.teams rowIndex
    | "project" => idx env.projects rowIndex
    | "skill" => idx env.skills rowIndex
    | "language" => idx env.languages rowIndex
    | "status" => idx env.statuses rowIndex
    | "company" => idx env.companies rowIndex
    | "address" => idx env.addresses rowIndex ++ ", " ++ idx env.cities rowIndex
    | "date" => idx env.dates rowIndex
    | "startDate" => idx env.dates (rowIndex + 2)
    | "endDate" => idx env.dates (rowIndex + 5)
    | "deadline" => env.todayPlus (10 + rowIndex % 30)
    | "price" => idx env.prices rowIndex
    | "budget" => "$" ++ localeStr (10000 + (randNat env.rand 90000).1)
    | "revenue" => "$" ++ localeStr (100000 + (randNat env.rand 900000).1)
    | "profit" => "$" ++ localeStr (5000 + (randNat env.rand 50000).1)
    | "quantity" => idx env.quantities rowIndex
    | "rating" => idx env.ratings rowIndex
    | "id" => idx env.ids rowIndex
    | "accessLevel" =>
      (["Admin", "Editor", "Viewer", "Owner", "Guest"]).getD (rowIndex % 5) ""
    | "description" =>
      (["A comprehensive solution for enterprise needs.",
        "Designed with user experience in mind.",
        "Optimized for performance and scalability.",
        "Innovative approach to solving complex problems.",
        "Industry-leading features and capabilities.",
        "Built on cutting-edge technology.",
        "Tailored for maximum efficiency.",
        "Seamless integration with existing systems.",
        "Revolutionary design that sets new standards.",
        "Engineered for reliability and durability."]).getD (rowIndex % 10) ""
    | "comment" =>
      (["Looks great, approved!",
        "Need some minor adjustments.",
        "Excellent work on this.",
        "Let's discuss this further.",
        "I have some concerns about this.",
        "Very impressive results.",
        "This exceeds expectations.",
        "Please review and get back to me.",
        "I'd like to see alternative options.",
        "This is exactly what we needed."]).getD (rowIndex % 10) ""
    | "duration" =>
      ([toString (1 + rowIndex % 12) ++ " hours",
        toString (1 + rowIndex % 30) ++ " days",
        toString (1 + rowIndex % 12) ++ " months"]).getD (rowIndex % 3) ""
    | _ => "Item " ++ toString (rowIndex + 1)

/-- Embeds the row/column loops of generateDataFromHeaders
(src/code.ts lines 956-975): classify each header once, then produce one
value per row index and classified column. -/
def generateDataFromHeaders (env : GenEnv) (headers : List String) (rowCount : Nat) :
    List (List String) :=
  let headerTypes := headers.map getDataTypeForHeader
  (List.range rowCount).map (fun i => headerTypes.map (fun ty => generateDataForType env ty i))

/-! ## Concrete fixtures used by scenarios, witnesses and counterexamples -/

/-- A cell instance at horizontal position x containing a value text node. -/
def mkCell (x : Int) : Node :=
  .mk ⟨.instN, "Cell", x, 0, ""⟩ (some [.mk ⟨.textN, "value", x, 0, ""⟩ none])

/-- The scenario table of spec section 8: one row of three cells at
x = 0, 120, 240. -/
def rows0 : List (List Node) := [[mkCell 0, mkCell 120, mkCell 240]]

/-- The scenario record with fields A, B, C. -/
def recABC : Record := [("A", .vStr "x"), ("B", .vStr "y"), ("C", .vStr "z")]

/-- The scenario payload, a single record. -/
def input0 : PopInput := .arr [recABC]

/-- A one-row, two-cell table. -/
def rows1 : List (List Node) := [[mkCell 0, mkCell 120]]

/-- A payload of two single-field records. -/
def input1 : PopInput := .arr [[("A", .vStr "x")], [("A", .vStr "y")]]

/-- A node with no value layer anywhere. -/
def nodeNoSlot : Node := .mk ⟨.textN, "label", 0, 0, "t"⟩ none

/-- A non-instance row container holding two cell instances. -/
def frameRow : Node := .mk ⟨.frameN, "Row", 0, 0, ""⟩ (some [mkCell 0, mkCell 120])

/-- Four organizer cells: two sharing parent 1, one under parent 2 lower
on the canvas, and one parentless. -/
def cells4 : List RCell :=
  [⟨some 1, 10, 5⟩, ⟨some 1, 0, 5⟩, ⟨some 2, 0, 1⟩, ⟨none, 7, 7⟩]

/-- A two-row, three-column table reusing the scenario row. -/
def rows7 : List (List Node) :=
  [[mkCell 0, mkCell 120, mkCell 240], [mkCell 0, mkCell 120, mkCell 240]]

/-- The node c is an immediate child of p. -/
def childOf (c p : Node) : Prop := ∃ l, p.children = some l ∧ c ∈ l

/-- Pointwise conjunction over two lists of the same length (false when
the lengths differ). -/
def all2 (p : α → β → Bool) : List α → List β → Bool
  | [], [] => true
  | a :: l1, b :: l2 => p a b && all2 p l1 l2
  | _, _ => false

/-! ## Generic list lemmas for the embedding -/

theorem mem_concatMap {f : α → List β} {b : β} :
    ∀ {l : List α}, b ∈ concatMap f l ↔ ∃ a, a ∈ l ∧ b ∈ f a
  | [] => by simp [concatMap]
  | a :: l => by
    simp only [concatMap, List.mem_append, mem_concatMap (l := l), List.mem_cons]
    constructor
    · rintro (h | ⟨a2, h2, h3⟩)
      · exact ⟨a, Or.inl rfl, h⟩
      · exact ⟨a2, Or.inr h2, h3⟩
    · rintro ⟨a2, (rfl | h2), h3⟩
      · exact Or.inl h3
      · exact Or.inr ⟨a2, h2, h3⟩

theorem mem_ordInsert {le : α → α → Bool} {a x : α} :
    ∀ {l : List α}, x ∈ ordInsert le a l ↔ x = a ∨ x ∈ l
  | [] => by simp [ordInsert]
  | b :: l => by
    unfold ordInsert
    by_cases h : le a b = true
    · rw [if_pos h]
      simp only [List.mem_cons]
    · rw [if_neg h]
      simp only [List.mem_cons, mem_ordInsert (l := l)]
      tauto

theorem mem_sortBy {le : α → α → Bool} {x : α} :
    ∀ {l : List α}, x ∈ sortBy le l ↔ x ∈ l
  | [] => Iff.rfl
  | a :: l => by
    unfold sortBy
    simp only [mem_ordInsert, mem_sortBy (l := l), List.mem_cons]

theorem length_ordInsert {le : α → α → Bool} {a : α} :
    ∀ (l : List α), (ordInsert le a l).length = l.length + 1
  | [] => rfl
  | b :: l => by
    unfold ordInsert
    by_cases h : le a b = true
    · rw [if_pos h]
      rfl
    · rw [if_neg h]
      simp only [List.length_cons, @length_ordInsert _ le a l]

theorem length_sortBy {le : α → α → Bool} :
    ∀ (l : List α), (sortBy le l).length = l.length
  | [] => rfl
  | a :: l => by
    unfold sortBy
    simp only [length_ordInsert, @length_sortBy _ le l, List.length_cons]

theorem chainLe_ordInsert {le : α → α → Bool}
    (htot : ∀ x y, le x y = true ∨ le y x = true) (a : α) :
    ∀ l, chainLe le l = true → chainLe le (ordInsert le a l) = true
  | [], _ => rfl
  | [b], _ => by
    unfold ordInsert
    by_cases h : le a b = true
    · rw [if_pos h]
      show (le a b && chainLe le [b]) = true
      rw [h]
      rfl
    · rw [if_neg h]
      have hba := (htot a b).resolve_left h
      show (le b a && chainLe le [a]) = true
      rw [hba]
      rfl
  | b :: c :: l, hch => by
    have h12 : le b c = true ∧ chainLe le (c :: l) = true := by
      have hx : (le b c && chainLe le (c :: l)) = true := hch
      exact ⟨by
        cases hy : le b c
        · rw [hy, Bool.false_and] at hx
          exact absurd hx Bool.false_ne_true
        · rfl, by
        cases hz : chainLe le (c :: l)
        · rw [hz, Bool.and_false] at hx
          exact absurd hx Bool.false_ne_true
        · rfl⟩
    have ih := chainLe_ordInsert htot a (c :: l) h12.2
    have hu : ordInsert le a (b :: c :: l) =
        if le a b = true then a :: b :: c :: l else b :: ordInsert le a (c :: l) := rfl
    have hv : ordInsert le a (c :: l) =
        if le a c = true then a :: c :: l else c :: ordInsert le a l := rfl
    rw [hu]
    by_cases hab : le a b = true
    · rw [if_pos hab]
      show (le a b && chainLe le (b :: c :: l)) = true
      rw [hab, hch]
      rfl
    · rw [if_neg hab]
      have hba := (htot a b).resolve_left hab
      by_cases hac : le a c = true
      · rw [hv, if_pos hac]
        show (le b a && chainLe le (a :: c :: l)) = true
        have he2 : chainLe le (a :: c :: l) = (le a c && chainLe le (c :: l)) := rfl
        rw [hba, he2, hac, h12.2]
        rfl
      · rw [hv, if_neg hac]
        show (le b c && chainLe le (c :: ordInsert le a l)) = true
        rw [hv, if_neg hac] at ih
        rw [h12.1, ih]
        rfl

theorem chainLe_sortBy {le : α → α → Bool}
    (htot : ∀ x y, le x y = true ∨ le y x = true) :
    ∀ l, chainLe le (sortBy le l) = true
  | [] => rfl
  | a :: l => chainLe_ordInsert htot a (sortBy le l) (chainLe_sortBy htot l)

/-! ## Row organizer lemmas and claim C4 -/

theorem mem_dedupFirstAux {k : Nat} :
    ∀ (seen l : List Nat), k ∈ dedupFirstAux seen l → k ∈ l
  | _, [], h => absurd h (List.not_mem_nil k)
  | seen, k2 :: ks, h => by
    unfold dedupFirstAux at h
    by_cases hc : seen.contains k2 = true
    · rw [if_pos hc] at h
      exact List.mem_cons_of_mem _ (mem_dedupFirstAux seen ks h)
    · rw [if_neg hc] at h
      rcases List.mem_cons.mp h with h1 | h2
      · exact h1 ▸ List.mem_cons_self _ _
      · exact List.mem_cons_of_mem _ (mem_dedupFirstAux (k2 :: seen) ks h2)

theorem group_nonempty {cells : List RCell} {g : List RCell}
    (hg : g ∈ groupByParent cells) : g ≠ [] := by
  unfold groupByParent at hg
  rcases List.mem_map.mp hg with ⟨k, hk, rfl⟩
  have hk2 : k ∈ cells.filterMap (fun c => c.parentId) := mem_dedupFirstAux _ _ hk
  rcases List.mem_filterMap.mp hk2 with ⟨c, hc, hcp⟩
  have hcg : c ∈ cells.filter (fun c => c.parentId = some k) := by
    rw [List.mem_filter]
    exact ⟨hc, decide_eq_true hcp⟩
  exact List.ne_nil_of_mem hcg

theorem leX_total : ∀ a b : RCell, leX a b = true ∨ leX b a = true := by
  intro a b
  unfold leX
  rcases Int.le_total a.x b.x with h | h
  · exact Or.inl (decide_eq_true h)
  · exact Or.inr (decide_eq_true h)

theorem leRow_total : ∀ a b : List RCell, leRow a b = true ∨ leRow b a = true := by
  intro a b
  cases a with
  | nil => cases b <;> exact Or.inl rfl
  | cons c cs =>
    cases b with
    | nil => exact Or.inl rfl
    | cons d ds =>
      unfold leRow
      rcases Int.le_total c.y d.y with h | h
      · exact Or.inl (decide_eq_true h)
      · exact Or.inr (decide_eq_true h)

/-- C4: for every list of cells, the organizer output is monotonically
non-decreasing in x within every produced row, monotonically
non-decreasing across rows in the y of each row's first cell, and every
produced row is non-empty (so the leading-cell comparison is never the
degenerate equal-rows case). -/
theorem claim_C4 (cells : List RCell) :
    (∀ row ∈ organizeCellsIntoRows cells, chainLe leX row = true) ∧
    chainLe leRow (organizeCellsIntoRows cells) = true ∧
    (∀ row ∈ organizeCellsIntoRows cells, row ≠ []) := by
  refine ⟨?_, ?_, ?_⟩
  · intro row hrow
    unfold organizeCellsIntoRows at hrow
    rcases List.mem_map.mp (mem_sortBy.mp hrow) with ⟨g, _, rfl⟩
    exact chainLe_sortBy leX_total g
  · exact chainLe_sortBy leRow_total _
  · intro row hrow
    unfold organizeCellsIntoRows at hrow
    rcases List.mem_map.mp (mem_sortBy.mp hrow) with ⟨g, hg, rfl⟩
    have hne := group_nonempty hg
    intro hcon
    apply hne
    have hlen : (sortBy leX g).length = 0 := by rw [hcon]; rfl
    rw [length_sortBy] at hlen
    exact List.length_eq_zero.mp hlen

/-- Witness for C4 at a concrete cell list: the two-cell row produced for
parent 1 is x-sorted and the produced rows are y-sorted. -/
theorem claim_C4_witness :
    chainLe leX [(⟨some 1, 0, 5⟩ : RCell), ⟨some 1, 10, 5⟩] = true ∧
    chainLe leRow (organizeCellsIntoRows cells4) = true :=
  ⟨(claim_C4 cells4).1 [⟨some 1, 0, 5⟩, ⟨some 1, 10, 5⟩] (by decide),
   (claim_C4 cells4).2.1⟩

/-! ## Populator counting lemmas and claim C1 -/

theorem populateRow_count :
    ∀ (cells : List Node) (vals : List JValue),
      (populateRow cells vals).2 =
        ((cells.zip vals).filter (fun q => (findValueLayer q.1).isSome)).length
  | [], vals => by cases vals <;> rfl
  | _ :: _, [] => rfl
  | c :: cs, v :: vs => by
    cases hf : findValueLayer c with
    | some w =>
      simp [populateRow, hf, List.filter_cons, populateRow_count cs vs]
    | none =>
      simp [populateRow, hf, List.filter_cons, populateRow_count cs vs]

theorem populateRows_count :
    ∀ (rows : List (List Node)) (dataRows : List (List JValue)),
      (populateRows rows dataRows).2 = overlapSlotted rows dataRows
  | [], dataRows => by cases dataRows <;> rfl
  | _ :: _, [] => rfl
  | r :: rs, d :: ds => by
    simp [populateRows, overlapSlotted, populateRow_count r d, populateRows_count rs ds]

theorem populateRow_count_le (cells : List Node) (vals : List JValue) :
    (populateRow cells vals).2 ≤ min cells.length vals.length := by
  rw [populateRow_count]
  calc ((cells.zip vals).filter (fun q => (findValueLayer q.1).isSome)).length
      ≤ (cells.zip vals).length := List.length_filter_le _ _
    _ = min cells.length vals.length := List.length_zip cells vals

theorem populateRows_count_le :
    ∀ (rows : List (List Node)) (dataRows : List (List JValue)),
      (populateRows rows dataRows).2 ≤ min (totalCells rows) (totalValues dataRows)
  | [], dataRows => by
    have h : (populateRows [] dataRows).2 = 0 := by cases dataRows <;> rfl
    rw [h]
    exact Nat.zero_le _
  | _ :: _, [] => Nat.zero_le _
  | r :: rs, d :: ds => by
    have h1 := populateRow_count_le r d
    have h2 := populateRows_count_le rs ds
    have hu : (populateRows (r :: rs) (d :: ds)).2 =
        (populateRow r d).2 + (populateRows rs ds).2 := rfl
    simp only [totalCells, totalValues, List.map_cons, List.sum_cons] at h2 ⊢
    rw [hu]
    omega

/-- C1 (amended): the update count reported by populate equals the number
of overlap-visited cells whose value slot resolves (per overlapping row,
the overlapping cells with a value layer), and in particular populate
never writes more cells than min(total cells, total data values); the
spec's stronger formula (that exact minimum minus slotless cells) fails,
see the counterexample. -/
theorem claim_C1 (rows : List (List Node)) (data : PopInput) :
    (populateTable rows data).2 = overlapSlotted rows (convertObjectsTo2DArray data) ∧
    (populateTable rows data).2 ≤
      min (totalCells rows) (totalValues (convertObjectsTo2DArray data)) :=
  ⟨populateRows_count rows _, populateRows_count_le rows _⟩

/-- Counterexample to C1 as stated: one row of two slotted cells populated
with two one-field records gives min(total cells, total data values) =
min(2, 3) = 2 and no slotless cells, yet the reported count is 1 (the
second data row has no table row to land on and the first data row covers
only one cell). -/
theorem claim_C1_counterexample :
    rows1.all (fun r => r.all (fun c => (findValueLayer c).isSome)) = true ∧
    (populateTable rows1 input1).2 ≠
      min (totalCells rows1) (totalValues (convertObjectsTo2DArray input1)) := by
  constructor
  · decide
  · decide

/-! ## Conversion shape, the header-row scenario, and claim C2 -/

/-- C2: for a non-empty record list the 2-D conversion has the first
record's field names (order-preserving) as its head row and, at position
i + 1, the values of record i at those field names; consequently the
scenario table (one row, three cells at x = 0, 120, 240) populated with
the single record A/B/C receives the header strings A, B, C in row 0 and
reports update count 3. -/
theorem claim_C2 (r : Record) (rs : List Record) (i : Nat) (o : Record)
    (h : (r :: rs)[i]? = some o) :
    (convertObjectsTo2DArray (.arr (r :: rs))).head? =
      some (r.map (fun p => JValue.vStr p.1)) ∧
    (convertObjectsTo2DArray (.arr (r :: rs)))[i + 1]? =
      some (r.map (fun p => getValue o p.1)) ∧
    (populateTable rows0 input0).2 = 3 ∧
    (populateTable rows0 input0).1.map (fun row => row.map readCell) =
      [[some "A", some "B", some "C"]] := by
  refine ⟨rfl, ?_, rfl, rfl⟩
  show ((r.map (fun p => JValue.vStr p.1)) ::
      (r :: rs).map (fun o => r.map (fun p => getValue o p.1)))[i + 1]? = _
  rw [List.getElem?_cons_succ, List.getElem?_map, h]
  rfl

/-- Witness for C2 at the scenario input itself. -/
theorem claim_C2_witness :
    (convertObjectsTo2DArray (.arr [recABC])).head? =
      some (recABC.map (fun p => JValue.vStr p.1)) ∧
    (convertObjectsTo2DArray (.arr [recABC]))[0 + 1]? =
      some (recABC.map (fun p => getValue recABC p.1)) ∧
    (populateTable rows0 input0).2 = 3 ∧
    (populateTable rows0 input0).1.map (fun row => row.map readCell) =
      [[some "A", some "B", some "C"]] :=
  claim_C2 recABC [] 0 recABC rfl

/-! ## Malformed payloads and claim C8 -/

/-- C8: a non-array payload or an empty array converts to the empty 2-D
table, and populating any rows with it writes nothing and reports zero
updates. -/
theorem claim_C8 (rows : List (List Node)) (d : PopInput)
    (h : d = PopInput.nonArray ∨ d = PopInput.arr []) :
    convertObjectsTo2DArray d = [] ∧ populateTable rows d = (rows, 0) := by
  have hc : convertObjectsTo2DArray d = [] := by
    rcases h with rfl | rfl <;> rfl
  refine ⟨hc, ?_⟩
  unfold populateTable
  rw [hc]
  cases rows <;> rfl

/-- Witness for C8 at the empty-array payload and the scenario table. -/
theorem claim_C8_witness :
    convertObjectsTo2DArray (PopInput.arr []) = [] ∧
    populateTable rows0 (PopInput.arr []) = (rows0, 0) :=
  claim_C8 rows0 (PopInput.arr []) (Or.inr rfl)

/-! ## Value-slot resolver lemmas and claim C5 -/

theorem find?_append_aux (p : α → Bool) :
    ∀ (l1 l2 : List α), (l1 ++ l2).find? p = (l1.find? p <|> l2.find? p)
  | [], l2 => rfl
  | a :: l1, l2 => by
    by_cases h : p a = true
    · rw [List.cons_append, List.find?_cons_of_pos _ h, List.find?_cons_of_pos _ h]
      rfl
    · rw [List.cons_append, List.find?_cons_of_neg _ h, List.find?_cons_of_neg _ h]
      exact find?_append_aux p l1 l2

theorem findValueList_eq_find? :
    ∀ (l : List Node),
      (∀ c ∈ l, findValueLayer c = (preorder c).find? isValueText) →
      findValueList l = (preorderList l).find? isValueText
  | [], _ => rfl
  | c :: rest, h => by
    have hc := h c (List.mem_cons_self c rest)
    have hr := findValueList_eq_find? rest (fun x hx => h x (List.mem_cons_of_mem c hx))
    have hpre : preorderList (c :: rest) = preorder c ++ preorderList rest := by
      simp only [preorderList]
    rw [hpre, find?_append_aux, ← hc, ← hr]
    cases hf : findValueLayer c with
    | some v => simp [findValueList, hf]
    | none => simp [findValueList, hf]

theorem findValueLayer_eq_find? :
    ∀ (n : Node), findValueLayer n = (preorder n).find? isValueText := by
  apply Node.ind (P := fun n => findValueLayer n = (preorder n).find? isValueText)
  intro i cs ih
  cases cs with
  | none =>
    have hp : preorder (Node.mk i none) = [Node.mk i none] := by
      simp only [preorder]
    by_cases hv : isValueText (Node.mk i none) = true
    · have h1 : findValueLayer (Node.mk i none) = some (Node.mk i none) := by
        unfold findValueLayer
        rw [if_pos hv]
      rw [h1, hp, List.find?_cons_of_pos _ hv]
    · have h1 : findValueLayer (Node.mk i none) = none := by
        unfold findValueLayer
        rw [if_neg hv]
      rw [h1, hp, List.find?_cons_of_neg _ hv]
      rfl
  | some l =>
    have hp : preorder (Node.mk i (some l)) = Node.mk i (some l) :: preorderList l := by
      simp only [preorder]
    by_cases hv : isValueText (Node.mk i (some l)) = true
    · have h1 : findValueLayer (Node.mk i (some l)) = some (Node.mk i (some l)) := by
        unfold findValueLayer
        rw [if_pos hv]
      rw [h1, hp, List.find?_cons_of_pos _ hv]
    · have h1 : findValueLayer (Node.mk i (some l)) = findValueList l := by
        unfold findValueLayer
        rw [if_neg hv]
      rw [h1, hp, List.find?_cons_of_neg _ hv]
      exact findValueList_eq_find? l (fun c hc => ih c l rfl hc)

/-- C5: the resolver returns exactly the first node in pre-order (the
root itself considered first) whose name lower-cases to "value" and which
is a TEXT node, absence included (find? returns none exactly when no such
node exists); and the populator treats an unresolvable cell as a silent
skip: the cell is left untouched, nothing is counted for it, and the loop
continues with the remaining cells. -/
theorem claim_C5 (n : Node) (cells : List Node) (v : JValue) (vals : List JValue) :
    findValueLayer n = (preorder n).find? isValueText ∧
    (findValueLayer n = none →
      populateRow (n :: cells) (v :: vals) =
        (n :: (populateRow cells vals).1, (populateRow cells vals).2)) := by
  refine ⟨findValueLayer_eq_find? n, fun h => ?_⟩
  simp [populateRow, h]

/-- Witness for C5 at a concrete slotless node: a TEXT node named
"label" resolves to none and is skipped without a count. -/
theorem claim_C5_witness :
    findValueLayer nodeNoSlot = (preorder nodeNoSlot).find? isValueText ∧
    populateRow [nodeNoSlot] [.vStr "q"] = ([nodeNoSlot], 0) := by
  have h := claim_C5 nodeNoSlot [] (.vStr "q") []
  exact ⟨h.1, h.2 rfl⟩

/-! ## Write/read-back lemmas and claim C7 -/

theorem isValueText_setChars (n : Node) (s : String) :
    isValueText (setChars n s) = isValueText n := by
  cases n
  rfl

theorem chars_setChars (n : Node) (s : String) : (setChars n s).chars = s := by
  cases n
  rfl

theorem setValueList_find (s : String) :
    ∀ (l : List Node),
      (∀ c ∈ l, findValueLayer (setValueLayer c s) =
        (findValueLayer c).map (fun m => setChars m s)) →
      findValueList (setValueList l s) = (findValueList l).map (fun m => setChars m s)
  | [], _ => rfl
  | c :: rest, h => by
    have hc := h c (List.mem_cons_self c rest)
    have hr := setValueList_find s rest (fun x hx => h x (List.mem_cons_of_mem c hx))
    cases hf : findValueLayer c with
    | some v =>
      have h2 : findValueLayer (setValueLayer c s) = some (setChars v s) := by
        rw [hc, hf]
        rfl
      simp [setValueList, hf, findValueList, h2]
    | none =>
      have h2 : findValueLayer (setValueLayer c s) = none := by
        rw [hc, hf]
        rfl
      simp [setValueList, hf, findValueList, h2, hr]

theorem findValueLayer_setValueLayer :
    ∀ (n : Node) (s : String),
      findValueLayer (setValueLayer n s) =
        (findValueLayer n).map (fun m => setChars m s) := by
  apply Node.ind
    (P := fun n => ∀ s, findValueLayer (setValueLayer n s) =
      (findValueLayer n).map (fun m => setChars m s))
  intro i cs ih s
  by_cases hv : isValueText (Node.mk i cs) = true
  · have h1 : findValueLayer (Node.mk i cs) = some (Node.mk i cs) := by
      unfold findValueLayer
      rw [if_pos hv]
    have hv2 : isValueText (Node.mk { i with chars := s } cs) = true := hv
    have h2 : setValueLayer (Node.mk i cs) s = Node.mk { i with chars := s } cs := by
      unfold setValueLayer
      rw [if_pos hv]
      rfl
    have h3 : findValueLayer (Node.mk { i with chars := s } cs) =
        some (Node.mk { i with chars := s } cs) := by
      unfold findValueLayer
      rw [if_pos hv2]
    rw [h2, h3, h1]
    rfl
  · cases cs with
    | none =>
      have h1 : findValueLayer (Node.mk i none) = none := by
        unfold findValueLayer
        rw [if_neg hv]
      have h2 : setValueLayer (Node.mk i none) s = Node.mk i none := by
        unfold setValueLayer
        rw [if_neg hv]
      rw [h2, h1]
      rfl
    | some l =>
      have h1 : findValueLayer (Node.mk i (some l)) = findValueList l := by
        unfold findValueLayer
        rw [if_neg hv]
      have h2 : setValueLayer (Node.mk i (some l)) s =
          Node.mk i (some (setValueList l s)) := by
        unfold setValueLayer
        rw [if_neg hv]
      have hv3 : ¬ isValueText (Node.mk i (some (setValueList l s))) = true := hv
      have h3 : findValueLayer (Node.mk i (some (setValueList l s))) =
          findValueList (setValueList l s) := by
        unfold findValueLayer
        rw [if_neg hv3]
      rw [h2, h3, h1]
      exact setValueList_find s l (fun c hc => ih c l rfl hc s)

theorem readCell_setValueLayer (n : Node) (s : String)
    (h : (findValueLayer n).isSome = true) :
    readCell (setValueLayer n s) = some s := by
  unfold readCell
  rw [findValueLayer_setValueLayer]
  cases hf : findValueLayer n with
  | none =>
    rw [hf] at h
    exact absurd h (by decide)
  | some v => simp [chars_setChars]

theorem populateRow_readback :
    ∀ (cells : List Node) (vals : List JValue),
      cells.all (fun c => (findValueLayer c).isSome) = true →
      cells.length = vals.length →
      all2 (fun c v => readCell c == some (jsString v)) (populateRow cells vals).1 vals = true
  | [], [], _, _ => rfl
  | [], _ :: _, _, hlen => by simp at hlen
  | _ :: _, [], _, hlen => by simp at hlen
  | c :: cs, v :: vs, hall, hlen => by
    have hparts : (findValueLayer c).isSome = true ∧
        cs.all (fun c => (findValueLayer c).isSome) = true := by
      have hx : ((findValueLayer c).isSome && cs.all (fun c => (findValueLayer c).isSome)) = true :=
        hall
      exact ⟨by
        cases hy : (findValueLayer c).isSome
        · rw [hy, Bool.false_and] at hx
          exact absurd hx Bool.false_ne_true
        · rfl, by
        cases hz : cs.all (fun c => (findValueLayer c).isSome)
        · rw [hz, Bool.and_false] at hx
          exact absurd hx Bool.false_ne_true
        · rfl⟩
    have hlen2 : cs.length = vs.length := by
      simp only [List.length_cons] at hlen
      omega
    cases hf : findValueLayer c with
    | none =>
      rw [hf] at hparts
      exact absurd hparts.1 (by decide)
    | some w =>
      have h1 : populateRow (c :: cs) (v :: vs) =
          (setValueLayer c (jsString v) :: (populateRow cs vs).1,
            (populateRow cs vs).2 + 1) := by
        simp [populateRow, hf]
      rw [h1]
      show ((readCell (setValueLayer c (jsString v)) == some (jsString v)) &&
          all2 (fun c v => readCell c == some (jsString v)) (populateRow cs vs).1 vs) = true
      rw [readCell_setValueLayer c _ (by rw [hf]; rfl),
        populateRow_readback cs vs hparts.2 hlen2]
      simp

theorem populateRows_readback :
    ∀ (rows : List (List Node)) (dataRows : List (List JValue)),
      rows.all (fun r => r.all (fun c => (findValueLayer c).isSome)) = true →
      all2 (fun r d => r.length == d.length) rows dataRows = true →
      all2 (fun r d => all2 (fun c v => readCell c == some (jsString v)) r d)
        (populateRows rows dataRows).1 dataRows = true
  | [], [], _, _ => rfl
  | [], _ :: _, _, hdim => by exact absurd hdim Bool.false_ne_true
  | _ :: _, [], _, hdim => by exact absurd hdim Bool.false_ne_true
  | r :: rs, d :: ds, hall, hdim => by
    have hallparts : r.all (fun c => (findValueLayer c).isSome) = true ∧
        rs.all (fun r => r.all (fun c => (findValueLayer c).isSome)) = true := by
      have hx : (r.all (fun c => (findValueLayer c).isSome) &&
          rs.all (fun r => r.all (fun c => (findValueLayer c).isSome))) = true := hall
      exact ⟨by
        cases hy : r.all (fun c => (findValueLayer c).isSome)
        · rw [hy, Bool.false_and] at hx
          exact absurd hx Bool.false_ne_true
        · rfl, by
        cases hz : rs.all (fun r => r.all (fun c => (findValueLayer c).isSome))
        · rw [hz, Bool.and_false] at hx
          exact absurd hx Bool.false_ne_true
        · rfl⟩
    have hdimparts : (r.length == d.length) = true ∧
        all2 (fun r d => r.length == d.length) rs ds = true := by
      have hx : ((r.length == d.length) && all2 (fun r d => r.length == d.length) rs ds) = true :=
        hdim
      exact ⟨by
        cases hy : r.length == d.length
        · rw [hy, Bool.false_and] at hx
          exact absurd hx Bool.false_ne_true
        · rfl, by
        cases hz : all2 (fun r d => r.length == d.length) rs ds
        · rw [hz, Bool.and_false] at hx
          exact absurd hx Bool.false_ne_true
        · rfl⟩
    have h1 : populateRows (r :: rs) (d :: ds) =
        ((populateRow r d).1 :: (populateRows rs ds).1,
          (populateRow r d).2 + (populateRows rs ds).2) := rfl
    rw [h1]
    show ((all2 (fun c v => readCell c == some (jsString v)) (populateRow r d).1 d) &&
        all2 (fun r d => all2 (fun c v => readCell c == some (jsString v)) r d)
          (populateRows rs ds).1 ds) = true
    rw [populateRow_readback r d hallparts.1 (beq_iff_eq.mp hdimparts.1),
      populateRows_readback rs ds hallparts.2 hdimparts.2]
    rfl

/-- C7 (round trip): if a table's rows match the populated dataset's 2-D
conversion dimension for dimension and every cell has a value slot, then
after populating, reading each cell's text back yields exactly the
stringified value written there, with the number 5 stringified as "5" and
null as the empty string. -/
theorem claim_C7 (rows : List (List Node)) (D : List Record)
    (hdim : all2 (fun r d => r.length == d.length) rows
      (convertObjectsTo2DArray (.arr D)) = true)
    (hslot : rows.all (fun r => r.all (fun c => (findValueLayer c).isSome)) = true) :
    all2 (fun r d => all2 (fun c v => readCell c == some (jsString v)) r d)
      (populateTable rows (.arr D)).1 (convertObjectsTo2DArray (.arr D)) = true ∧
    jsString (.vNum 5) = "5" ∧ jsString .vNull = "" :=
  ⟨populateRows_readback rows _ hslot hdim, rfl, rfl⟩

/-- Witness for C7 at a concrete two-row, three-column table populated
with the A/B/C record. -/
theorem claim_C7_witness :
    all2 (fun r d => all2 (fun c v => readCell c == some (jsString v)) r d)
      (populateTable rows7 (.arr [recABC])).1 (convertObjectsTo2DArray (.arr [recABC])) = true ∧
    jsString (.vNum 5) = "5" ∧ jsString .vNull = "" :=
  claim_C7 rows7 [recABC] (by decide) (by decide)

/-! ## Selector lemmas and claims C6 and C10 -/

theorem cellsFrom_sub {n : Node} {l : List Node} (h : n ∈ cellsFrom l) :
    n ∈ l ∧ isCellInstance n = true :=
  List.mem_filter.mp h

theorem cellsFromChild_cases {n child : Node} (h : n ∈ cellsFromChild child) :
    isCellInstance n = true ∧ (n = child ∨ childOf n child) := by
  unfold cellsFromChild at h
  by_cases hi : child.ntype.isInst = true
  · rw [if_pos hi] at h
    by_cases hc : (strLower child.name == "cell") = true
    · rw [if_pos hc] at h
      have hn : n = child := List.mem_singleton.mp h
      subst hn
      refine ⟨?_, Or.inl rfl⟩
      show (n.ntype.isInst && (strLower n.name == "cell")) = true
      rw [hi, hc]
      rfl
    · rw [if_neg hc] at h
      cases hch : child.children with
      | none =>
        simp only [hch] at h
        exact absurd h (List.not_mem_nil n)
      | some gl =>
        simp only [hch] at h
        have hs := cellsFrom_sub h
        exact ⟨hs.2, Or.inr ⟨gl, hch, hs.1⟩⟩
  · rw [if_neg hi] at h
    cases hch : child.children with
    | none =>
      simp only [hch] at h
      exact absurd h (List.not_mem_nil n)
    | some gl =>
      simp only [hch] at h
      have hs := cellsFrom_sub h
      exact ⟨hs.2, Or.inr ⟨gl, hch, hs.1⟩⟩

theorem cellsFromRoot_cases {n root : Node} (h : n ∈ cellsFromRoot root) :
    isCellInstance n = true ∧
      (n = root ∨ childOf n root ∨ ∃ q, childOf q root ∧ childOf n q) := by
  unfold cellsFromRoot at h
  by_cases hi : root.ntype.isInst = true
  · rw [if_pos hi] at h
    by_cases hc : (strLower root.name == "cell") = true
    · rw [if_pos hc] at h
      have hn : n = root := List.mem_singleton.mp h
      subst hn
      refine ⟨?_, Or.inl rfl⟩
      show (n.ntype.isInst && (strLower n.name == "cell")) = true
      rw [hi, hc]
      rfl
    · rw [if_neg hc] at h
      cases hch : root.children with
      | none =>
        simp only [hch] at h
        exact absurd h (List.not_mem_nil n)
      | some l =>
        simp only [hch] at h
        have hs := cellsFrom_sub h
        exact ⟨hs.2, Or.inr (Or.inl ⟨l, hch, hs.1⟩)⟩
  · rw [if_neg hi] at h
    cases hch : root.children with
    | none =>
      simp only [hch] at h
      exact absurd h (List.not_mem_nil n)
    | some l =>
      simp only [hch] at h
      rcases mem_concatMap.mp h with ⟨child, hchild, hn⟩
      rcases cellsFromChild_cases hn with ⟨hcell, heq | hco⟩
      · exact ⟨hcell, Or.inr (Or.inl ⟨l, hch, heq ▸ hchild⟩)⟩
      · exact ⟨hcell, Or.inr (Or.inr ⟨child, ⟨l, hch, hchild⟩, hco⟩)⟩

/-- C6: every node collected by the selector sits at bounded depth below
the selection: it is a selection root itself, an immediate child of a
root, or a grandchild of a root; nothing deeper is ever collected. -/
theorem claim_C6 (sel : List Node) (n : Node) (h : n ∈ getAllCells sel) :
    n ∈ sel ∨ (∃ p, p ∈ sel ∧ childOf n p) ∨
      (∃ p q, p ∈ sel ∧ childOf q p ∧ childOf n q) := by
  unfold getAllCells at h
  rcases mem_concatMap.mp h with ⟨root, hroot, hn⟩
  rcases (cellsFromRoot_cases hn).2 with h1 | h2 | ⟨q, hq1, hq2⟩
  · exact Or.inl (h1 ▸ hroot)
  · exact Or.inr (Or.inl ⟨root, hroot, h2⟩)
  · exact Or.inr (Or.inr ⟨root, q, hroot, hq1, hq2⟩)

/-- Witness for C6: a cell collected from inside a frame row is an
immediate child of a selection root. -/
theorem claim_C6_witness :
    mkCell 0 ∈ [frameRow] ∨ (∃ p, p ∈ [frameRow] ∧ childOf (mkCell 0) p) ∨
      (∃ p q, p ∈ [frameRow] ∧ childOf q p ∧ childOf (mkCell 0) q) :=
  claim_C6 [frameRow] (mkCell 0) (by
    have he : getAllCells [frameRow] = [mkCell 0, mkCell 120] := rfl
    rw [he]
    exact List.mem_cons_self _ _)

theorem isCellInstance_parts {n : Node} (h : isCellInstance n = true) :
    n.ntype = NType.instN ∧ strLower n.name = "cell" := by
  have h2 : n.ntype.isInst = true ∧ (strLower n.name == "cell") = true := by
    have hx : (n.ntype.isInst && (strLower n.name == "cell")) = true := h
    exact ⟨by
      cases hy : n.ntype.isInst
      · rw [hy, Bool.false_and] at hx
        exact absurd hx Bool.false_ne_true
      · rfl, by
      cases hz : strLower n.name == "cell"
      · rw [hz, Bool.and_false] at hx
        exact absurd hx Bool.false_ne_true
      · rfl⟩
  constructor
  · cases ht : n.ntype
    · rfl
    · rw [ht] at h2
      exact absurd h2.1 (by decide)
    · rw [ht] at h2
      exact absurd h2.1 (by decide)
    · rw [ht] at h2
      exact absurd h2.1 (by decide)
  · exact beq_iff_eq.mp h2.2

theorem getAllCells_isCell {sel : List Node} {n : Node} (h : n ∈ getAllCells sel) :
    isCellInstance n = true := by
  unfold getAllCells at h
  rcases mem_concatMap.mp h with ⟨root, _, hn⟩
  exact (cellsFromRoot_cases hn).1

/-- C10: every node the selector returns is an INSTANCE whose name
lower-cases to "cell"; in particular a non-instance node, whatever its
name, is never collected. -/
theorem claim_C10 (sel : List Node) (n : Node) (h : n ∈ getAllCells sel) :
    (n.ntype = NType.instN ∧ strLower n.name = "cell") ∧
      ∀ m : Node, m.ntype ≠ NType.instN → m ∉ getAllCells sel := by
  refine ⟨isCellInstance_parts (getAllCells_isCell h), ?_⟩
  intro m hm hmem
  exact hm (isCellInstance_parts (getAllCells_isCell hmem)).1

/-- Witness for C10 at the frame-row selection and its first cell. -/
theorem claim_C10_witness :
    ((mkCell 0).ntype = NType.instN ∧ strLower (mkCell 0).name = "cell") ∧
      ∀ m : Node, m.ntype ≠ NType.instN → m ∉ getAllCells [frameRow] :=
  claim_C10 [frameRow] (mkCell 0) (by
    have he : getAllCells [frameRow] = [mkCell 0, mkCell 120] := rfl
    rw [he]
    exact List.mem_cons_self _ _)

/-! ## Header classification lemmas and claim C9 -/

theorem strIncludes_append_at (s : String) :
    strIncludes (s ++ "@company.com") "@" = true := by
  unfold strIncludes listContainsSub
  refine List.any_eq_true.mpr ⟨s.data.length, ?_, ?_⟩
  · rw [List.mem_range]
    have hd : (s ++ "@company.com").data = s.data ++ "@company.com".data :=
      String.data_append s _
    rw [hd, List.length_append]
    have h12 : ("@company.com".data).length = 12 := rfl
    omega
  · unfold subAt
    have hd : (s ++ "@company.com").data = s.data ++ '@' :: "company.com".data := by
      rw [String.data_append]
    rw [hd, List.drop_left]
    rfl

/-- C9: header classification is deterministic: "Email Address" always
classifies as the email type and the email generator always produces a
string containing "@" (whatever the shuffled pools and random source);
"Foo Bar" matches no rule, falls back to the generic pseudo-type carrying
its text, and at row index 0 generates exactly "Foo Bar 1". -/
theorem claim_C9 :
    getDataTypeForHeader "Email Address" = "email" ∧
    (∀ (env : GenEnv) (i : Nat),
      strIncludes (generateDataForType env "email" i) "@" = true) ∧
    getDataTypeForHeader "Foo Bar" = "generic:Foo Bar" ∧
    (∀ env : GenEnv, generateDataForType env "generic:Foo Bar" 0 = "Foo Bar 1") := by
  refine ⟨by decide, ?_, by decide, fun env => rfl⟩
  intro env i
  show strIncludes ((strLower (idx env.firstNames i) ++ "." ++
      strLower (idx env.lastNames i)) ++ "@company.com") "@" = true
  exact strIncludes_append_at _

/-! ## Fixed-schema generator lemmas and claim C3 -/

theorem length_listSwap (l : List α) (i j : Nat) : (listSwap l i j).length = l.length := by
  unfold listSwap
  cases h1 : l.get? i with
  | none => rfl
  | some a =>
    cases h2 : l.get? j with
    | none => rfl
    | some b => simp [List.length_set]

theorem mem_listSwap {x : α} {l : List α} {i j : Nat} (h : x ∈ listSwap l i j) : x ∈ l := by
  unfold listSwap at h
  cases h1 : l.get? i with
  | none =>
    simp only [h1] at h
    exact h
  | some a =>
    cases h2 : l.get? j with
    | none =>
      simp only [h1, h2] at h
      exact h
    | some b =>
      simp only [h1, h2] at h
      rcases List.mem_or_eq_of_mem_set h with h3 | h3
      · rcases List.mem_or_eq_of_mem_set h3 with h4 | h4
        · exact h4
        · exact h4 ▸ List.get?_mem h2
      · exact h3 ▸ List.get?_mem h1

theorem length_fyAux : ∀ (l : List α) (r : Rand) (n : Nat), (fyAux l r n).1.length = l.length
  | _, _, 0 => rfl
  | l, r, n + 1 => by
    have hu : fyAux l r (n + 1) =
        fyAux (listSwap l (n + 1) (randNat r (n + 2)).1) (randNat r (n + 2)).2 n := rfl
    rw [hu, length_fyAux, length_listSwap]

theorem mem_fyAux {x : α} :
    ∀ (l : List α) (r : Rand) (n : Nat), x ∈ (fyAux l r n).1 → x ∈ l
  | _, _, 0, h => h
  | _, _, n + 1, h => mem_listSwap (mem_fyAux _ _ n h)

theorem length_shuffleArray (l : List α) (r : Rand) :
    (shuffleArray l r).1.length = l.length :=
  length_fyAux l r _

theorem mem_shuffleArray {x : α} {l : List α} {r : Rand}
    (h : x ∈ (shuffleArray l r).1) : x ∈ l :=
  mem_fyAux l r _ h

theorem length_buildRecords (p : Pools) (cc : Nat) :
    ∀ (i n : Nat) (r : Rand), (buildRecords p cc i n r).1.length = n
  | _, 0, _ => rfl
  | i, n + 1, r => by
    have hu : buildRecords p cc i (n + 1) r =
        ((makeRecord p cc i r).1 ::
            (buildRecords p cc (i + 1) n (makeRecord p cc i r).2).1,
          (buildRecords p cc (i + 1) n (makeRecord p cc i r).2).2) := rfl
    rw [hu, List.length_cons, length_buildRecords p cc (i + 1) n _]

theorem keysOf_makeRecord (p : Pools) {cc : Nat} (hcc : cc ≤ 6) (i : Nat) (r : Rand) :
    keysOf (makeRecord p cc i r).1 = baseFields := by
  have h6 : ¬ (6 < cc) := by omega
  have h7 : ¬ (7 < cc) := by omega
  have h8 : ¬ (8 < cc) := by omega
  have h9 : ¬ (9 < cc) := by omega
  have h10 : ¬ (10 < cc) := by omega
  have h11 : ¬ (11 < cc) := by omega
  simp [makeRecord, keysOf, baseFields, h6, h7, h8, h9, h10, h11]

theorem keysOf_buildRecords (p : Pools) {cc : Nat} (hcc : cc ≤ 6) :
    ∀ (i n : Nat) (r : Rand) (rec : Record),
      rec ∈ (buildRecords p cc i n r).1 → keysOf rec = baseFields
  | _, 0, _, rec, h => absurd h (List.not_mem_nil rec)
  | i, n + 1, r, rec, h => by
    have h2 : rec ∈ (makeRecord p cc i r).1 ::
        (buildRecords p cc (i + 1) n (makeRecord p cc i r).2).1 := h
    rcases List.mem_cons.mp h2 with h3 | h3
    · rw [h3]
      exact keysOf_makeRecord p hcc i r
    · exact keysOf_buildRecords p hcc (i + 1) n _ rec h3

theorem length_generateFixed (rowCount colCount : Nat) (r : Rand) :
    (generateFixed rowCount colCount r).length = rowCount := by
  simp only [generateFixed]
  rw [List.length_take, length_shuffleArray, length_buildRecords]
  omega

theorem keys_generateFixed (r : Rand) :
    ∀ rec ∈ generateFixed 5 6 r, keysOf rec = baseFields := by
  intro rec h
  simp only [generateFixed] at h
  have h2 := mem_shuffleArray (List.mem_of_mem_take h)
  exact keysOf_buildRecords _ (by omega) _ _ _ rec h2

/-- C3: for every random stream the fixed-schema generator builds a pool
of max(rowCount, 30) records, shuffles it and truncates it to exactly
rowCount records; and generateFixed(5, 6) yields exactly 5 records each
carrying exactly the six base fields (Name, Department, Email, Location,
Access Level, Status) and nothing more, since extended fields require a
column count hint above 6. -/
theorem claim_C3 (rowCount colCount : Nat) (r : Rand) :
    (generateFixed rowCount colCount r).length = rowCount ∧
    (generateFixed 5 6 r).length = 5 ∧
    (generateFixed 5 6 r).all (fun rec => keysOf rec == baseFields) = true := by
  refine ⟨length_generateFixed rowCount colCount r, length_generateFixed 5 6 r, ?_⟩
  rw [List.all_eq_true]
  intro rec hrec
  show (keysOf rec == baseFields) = true
  exact beq_iff_eq.mpr (keys_generateFixed r rec hrec)

end Tabulate
